import Mathlib

/-
Verification of the index-reconciliation core of terraform-provider-mongodb.

The Go source is shallowly embedded: BSON documents become ordered association
lists, Go maps with string keys become association lists, pointer-typed
optional fields become Option, Go zero-values stay explicit, and fallible
paths return Except/Option.  Driver- and server-side behaviour (index
creation echo, DropOne) is modelled explicitly where a property needs it,
following the specification's description of these external collaborators.
-/

namespace Mongodb

/-- A BSON value as the mongo driver hands it back (bson.M / bson.D payloads):
documents are kept as ordered association lists. -/
inductive BsonValue where
  | int32 (n : Int)
  | int64 (n : Int)
  | double (q : Rat)
  | str (s : String)
  | bool (b : Bool)
  | doc (entries : List (String × BsonValue))
  | arr (elems : List BsonValue)

/-- IndexKey from internal/mongodb/types_index.go: one (field, type-tag) pair. -/
structure IndexKey where
  field : String
  type : String
deriving DecidableEq, Repr

/-- IndexKeys from internal/mongodb/types_index.go. -/
abbrev IndexKeys := List IndexKey

/-- options.Collation of the mongo driver, the subset of fields this provider
reads and writes. -/
structure Collation where
  locale : String
  caseLevel : Bool
  caseFirst : String
  strength : Int
  numericOrdering : Bool
  alternate : String
  maxVariable : String
  backwards : Bool
deriving DecidableEq, Repr

/-- The value-typed IndexOptions variant used by internal/mongodb/index.go:
plain Go values (bool, int32, float64, string), maps as association lists,
the driver Collation as an Option pointer, Weights as an Option map because
CreateIndex tests it against nil.  float64 fields are modelled as Rat. -/
structure IndexOptions where
  unique : Bool := false
  sparse : Bool := false
  hidden : Bool := false
  partialFilterExpression : List (String × BsonValue) := []
  wildcardProjection : List (String × Int) := []
  collation : Option Collation := none
  expireAfterSeconds : Int := 0
  version : Int := 0
  sphereVersion : Int := 0
  weights : Option (List (String × Int)) := none
  defaultLanguage : String := ""
  languageOverride : String := ""
  textIndexVersion : Int := 0
  bits : Int := 0
  min : Rat := 0
  max : Rat := 0

/-- Index from internal/mongodb/types_index.go: identity triple, keys, options. -/
structure Index where
  name : String
  database : String
  collection : String
  keys : IndexKeys
  options : IndexOptions

/-- GetIndexOptions from internal/mongodb/index.go: the identity triple. -/
structure GetIndexOptions where
  name : String
  database : String
  collection : String
deriving DecidableEq, Repr

/-- The per-key value mapping of IndexKeys.toBson
(internal/mongodb/types_index.go, the switch on key.Type): unrecognized tags
fall through to 1. -/
def keyTypeToBsonValue (t : String) : BsonValue :=
  if t = "1" ∨ t = "asc" then .int32 1
  else if t = "-1" ∨ t = "desc" then .int32 (-1)
  else if t = "2dsphere" then .str "2dsphere"
  else if t = "wildcard" then .int32 1
  else if t = "text" then .str "text"
  else .int32 1

/-- IndexKeys.toBson from internal/mongodb/types_index.go: the bson.D key
document sent to the database. -/
def IndexKeys.toBson (k : IndexKeys) : List (String × BsonValue) :=
  k.map (fun key => (key.field, keyTypeToBsonValue key.type))

/-- DefaultIndexVersion from internal/mongodb/types_index.go
(always use version 2 for better compatibility). -/
def DefaultIndexVersion : Int := 2

/-- The kind scans at the top of Client.CreateIndex (internal/mongodb/index.go). -/
def isWildcardIndex (idx : Index) : Bool :=
  idx.keys.any (fun key => key.type == "wildcard")

def is2dIndex (idx : Index) : Bool :=
  idx.keys.any (fun key => key.type == "2d")

def isTextIndex (idx : Index) : Bool :=
  idx.keys.any (fun key => key.type == "text")

/-- The driver-side mongo.IndexModel / options.IndexOptions that CreateIndex
emits: every SetX-guarded field is an Option (none = never set). -/
structure IndexCreateCommand where
  name : String
  version : Int
  keys : List (String × BsonValue)
  unique : Option Bool
  sparse : Option Bool
  hidden : Option Bool
  bits : Option Int
  min : Option Rat
  max : Option Rat
  weights : Option (List (String × Int))
  defaultLanguage : Option String
  languageOverride : Option String
  textIndexVersion : Option Int
  expireAfterSeconds : Option Int
  collation : Option Collation
  partialFilterExpression : Option (List (String × BsonValue))
  wildcardProjection : Option (List (String × Int))

/-- The pure command-construction part of Client.CreateIndex
(internal/mongodb/index.go lines 20-124): option suppression by kind, and the
unconditional SetVersion(DefaultIndexVersion). -/
def buildIndexModel (idx : Index) : IndexCreateCommand :=
  { name := idx.name
    version := DefaultIndexVersion
    keys := IndexKeys.toBson idx.keys
    unique := if idx.options.unique then some idx.options.unique else none
    sparse := if idx.options.sparse then some idx.options.sparse else none
    hidden := if idx.options.hidden then some idx.options.hidden else none
    bits := if is2dIndex idx = true ∧ idx.options.bits > 0 then some idx.options.bits else none
    min := if is2dIndex idx = true ∧ idx.options.min ≠ 0 then some idx.options.min else none
    max := if is2dIndex idx = true ∧ idx.options.max ≠ 0 then some idx.options.max else none
    weights := if isTextIndex idx then idx.options.weights else none
    defaultLanguage :=
      if isTextIndex idx = true ∧ idx.options.defaultLanguage ≠ "" then
        some idx.options.defaultLanguage
      else none
    languageOverride :=
      if isTextIndex idx = true ∧ idx.options.languageOverride ≠ "" then
        some idx.options.languageOverride
      else none
    textIndexVersion :=
      if isTextIndex idx = true ∧ idx.options.textIndexVersion > 0 then
        some idx.options.textIndexVersion
      else none
    expireAfterSeconds :=
      if idx.options.expireAfterSeconds > 0 ∧ isWildcardIndex idx = false then
        some idx.options.expireAfterSeconds
      else none
    collation := idx.options.collation
    partialFilterExpression :=
      if idx.options.partialFilterExpression.length > 0 then
        some idx.options.partialFilterExpression
      else none
    wildcardProjection :=
      if isWildcardIndex idx = true ∧ idx.options.wildcardProjection.length > 0 then
        some idx.options.wildcardProjection
      else none }

/-- Go strings.HasPrefix, computed on the character list (Lean's own
String.startsWith does not reduce inside the kernel). -/
def strHasPrefix (s pre : String) : Bool := pre.data.isPrefixOf s.data

/-- Go strings.HasSuffix. -/
def strHasSuffix (s suf : String) : Bool := suf.data.isSuffixOf s.data

/-- Go strings.ToLower (the heuristics below only compare ASCII). -/
def strToLower (s : String) : String := ⟨s.data.map Char.toLower⟩

/-- The split of a character list at the first occurrence of a separator:
the part before it and the part after it, none when the separator does not
occur. -/
def findSplit (sep : List Char) : List Char → Option (List Char × List Char)
  | [] => none
  | c :: rest =>
    if sep.isPrefixOf (c :: rest) then some ([], (c :: rest).drop sep.length)
    else
      match findSplit sep rest with
      | some (pre, post) => some (c :: pre, post)
      | none => none

/-- The digit scan of Go strconv: a nonempty all-digit character list as a
natural number (the 64-bit range check is not modelled; no property needs
it). -/
def digitsToNat? (l : List Char) : Option Nat :=
  if l ≠ [] ∧ l.all Char.isDigit then
    some (l.foldl (fun a c => a * 10 + (c.toNat - 48)) 0)
  else none

/-- Association-list lookup modelling Go's map indexing on a decoded bson.M
document (docs decoded from the server have unique keys, so taking the first
binding is faithful). -/
def lookup (doc : List (String × BsonValue)) (k : String) : Option BsonValue :=
  match doc with
  | [] => none
  | (k', v) :: rest => if k' = k then some v else lookup rest k

/-- Go's interface comparison rawValue == someInt32 (true only when the dynamic
type is int32 and the payloads agree). -/
def bsonEqInt32 (v : BsonValue) (n : Int) : Bool :=
  match v with
  | .int32 m => m == n
  | _ => false

/-- Go's interface comparison rawValue == someString. -/
def bsonEqString (v : BsonValue) (s : String) : Bool :=
  match v with
  | .str t => t == s
  | _ => false

mutual
/-- Go's fmt.Sprintf with the %v verb, as GetIndex applies it to decoded BSON
values.  Integer and string cases are exact; the float case is exact for
integral values (the only ones the embedding produces) and prints num/den
otherwise; documents print in stored order where Go's fmt would sort map keys
(no property here touches that case). -/
def fmtValue : BsonValue → String
  | .int32 n => toString n
  | .int64 n => toString n
  | .double q => if q.den = 1 then toString q.num else toString q.num ++ "/" ++ toString q.den
  | .str s => s
  | .bool b => if b then "true" else "false"
  | .doc entries => "map[" ++ fmtEntries entries ++ "]"
  | .arr elems => "[" ++ fmtElems elems ++ "]"

def fmtEntries : List (String × BsonValue) → String
  | [] => ""
  | [(k, v)] => k ++ ":" ++ fmtValue v
  | (k, v) :: e :: rest => k ++ ":" ++ fmtValue v ++ " " ++ fmtEntries (e :: rest)

def fmtElems : List BsonValue → String
  | [] => ""
  | [v] => fmtValue v
  | v :: e :: rest => fmtValue v ++ " " ++ fmtElems (e :: rest)
end

/-- The standard-index key classification of Client.GetIndex
(internal/mongodb/index.go lines 201-221): Sprintf the raw value, then
override for the wildcard special case and the int32 1 / int32 -1 cases.
Values outside the recognized set keep their printed form. -/
def classifyKeyValue (field : String) (v : BsonValue) : String :=
  if field = "$**" ∧ bsonEqInt32 v 1 = true then "wildcard"
  else if bsonEqInt32 v 1 then "1"
  else if bsonEqInt32 v (-1) then "-1"
  else fmtValue v

/-- The text-index marker test of GetIndex: key document field _fts holds the
string value "text". -/
def ftsMarkerPresent (keyValue : List (String × BsonValue)) : Bool :=
  match lookup keyValue "_fts" with
  | some (.str s) => s == "text"
  | _ => false

/-- The key-list reconstruction of Client.GetIndex (lines 170-223): text
indexes are rebuilt from the weights document (falling back to a synthetic
_fts entry), standard indexes from the key document via classifyKeyValue. -/
def reconcileKeys (raw : List (String × BsonValue)) : List IndexKey :=
  match lookup raw "key" with
  | some (.doc keyValue) =>
    if ftsMarkerPresent keyValue then
      match lookup raw "weights" with
      | some (.doc ws) =>
        if ws.isEmpty then [⟨"_fts", "text"⟩]
        else ws.map (fun e => ⟨e.1, "text"⟩)
      | _ => [⟨"_fts", "text"⟩]
    else
      keyValue.map (fun e => ⟨e.1, classifyKeyValue e.1 e.2⟩)
  | _ => []

/-- Errors Client.GetIndex can produce from a retrieved listing:
NotFoundError (internal/mongodb), or the abort of one of the unchecked Go
type assertions in the collation block (lines 273-281), which Go surfaces as
a runtime panic. -/
inductive ClientError where
  | notFound (name : String) (t : String)
  | assertFailed
deriving DecidableEq, Repr

/-- The unchecked type assertions of GetIndex's collation block: every one of
the eight fields must be present with exactly the asserted dynamic type. -/
def extractCollation (c : List (String × BsonValue)) : Option Collation :=
  match lookup c "locale", lookup c "strength", lookup c "caseLevel",
        lookup c "alternate", lookup c "backwards", lookup c "caseFirst",
        lookup c "maxVariable", lookup c "numericOrdering" with
  | some (.str locale), some (.int32 strength), some (.bool caseLevel),
    some (.str alternate), some (.bool backwards), some (.str caseFirst),
    some (.str maxVariable), some (.bool numericOrdering) =>
      some { locale, caseLevel, caseFirst, strength, numericOrdering,
             alternate, maxVariable, backwards }
  | _, _, _, _, _, _, _, _ => none

/-- The collation reconstruction of GetIndex (lines 271-284): a present
collation document with a missing or mistyped field aborts (Go panic). -/
def reconcileCollation (raw : List (String × BsonValue)) :
    Except ClientError (Option Collation) :=
  match lookup raw "collation" with
  | some (.doc c) =>
    match extractCollation c with
    | some col => .ok (some col)
    | none => .error .assertFailed
  | _ => .ok none

/-- The Sprintf applied to partial-filter values in GetIndex (lines 289-295):
int32 goes through %d, everything else through %v. -/
def pfeFmt (v : BsonValue) : String :=
  match v with
  | .int32 n => toString n
  | _ => fmtValue v

/-- The per-entry conversion of one matched raw listing entry inside
Client.GetIndex (internal/mongodb/index.go lines 165-312).  Faithful detail:
expireAfterSeconds and hidden are never read back by this variant. -/
def convertRawIndex (raw : List (String × BsonValue)) (opts : GetIndexOptions) :
    Except ClientError Index :=
  match reconcileCollation raw with
  | .error e => .error e
  | .ok col =>
    .ok
      { name := opts.name
        database := opts.database
        collection := opts.collection
        keys := reconcileKeys raw
        options :=
          { textIndexVersion :=
              match lookup raw "textIndexVersion" with
              | some (.int32 n) => n
              | _ => 0
            defaultLanguage :=
              match lookup raw "default_language" with
              | some (.str s) => s
              | _ => ""
            languageOverride :=
              match lookup raw "language_override" with
              | some (.str s) => s
              | _ => ""
            weights :=
              match lookup raw "weights" with
              | some (.doc ws) =>
                if ws.isEmpty then none
                else some (ws.filterMap (fun e =>
                  match e.2 with
                  | .int32 w => some (e.1, w)
                  | _ => none))
              | _ => none
            bits :=
              match lookup raw "bits" with
              | some (.int32 n) => n
              | _ => 0
            min :=
              match lookup raw "min" with
              | some (.double q) => q
              | _ => 0
            max :=
              match lookup raw "max" with
              | some (.double q) => q
              | _ => 0
            wildcardProjection :=
              match lookup raw "wildcardProjection" with
              | some (.doc p) =>
                p.filterMap (fun e =>
                  match e.2 with
                  | .int32 n => some (e.1, n)
                  | _ => none)
              | _ => []
            collation := col
            partialFilterExpression :=
              match lookup raw "partialFilterExpression" with
              | some (.doc p) => p.map (fun e => (e.1, BsonValue.str (pfeFmt e.2)))
              | _ => []
            unique :=
              match lookup raw "unique" with
              | some (.bool b) => b
              | _ => false
            sparse :=
              match lookup raw "sparse" with
              | some (.bool b) => b
              | _ => false
            version :=
              match lookup raw "v" with
              | some (.int32 n) => n
              | _ => 0 } }

/-- Go's rawIndex["name"] == options.Name (interface-to-string comparison;
a missing name field compares unequal). -/
def nameMatches (raw : List (String × BsonValue)) (name : String) : Bool :=
  match lookup raw "name" with
  | some v => bsonEqString v name
  | none => false

/-- Client.GetIndex after the listing has been retrieved
(internal/mongodb/index.go lines 159-320): scan for the first entry whose
name matches, convert it, otherwise NotFoundError. -/
def getIndexFromListing (rawIndexes : List (List (String × BsonValue)))
    (opts : GetIndexOptions) : Except ClientError Index :=
  match rawIndexes.find? (fun raw => nameMatches raw opts.name) with
  | some raw => convertRawIndex raw opts
  | none => .error (.notFound opts.name "index")

/-- One optional entry of a server-side index description: present exactly
when the create command carried the option. -/
def optEntry (k : String) (v : Option BsonValue) : List (String × BsonValue) :=
  match v with
  | some x => [(k, x)]
  | none => []

/-- Modelled from the spec: the text-key fields of an emitted key document
(the database replaces them with its internal marker and lists them in the
per-field weights document, spec section 4.2 step 1). -/
def simTextFields (cmd : IndexCreateCommand) : List (String × BsonValue) :=
  cmd.keys.filter (fun e => bsonEqString e.2 "text")

/-- Modelled from the spec: whether the created index is a text index, judged
from the emitted key document. -/
def simIsText (cmd : IndexCreateCommand) : Bool :=
  !(simTextFields cmd).isEmpty

/-- Modelled from the spec: the key document the server stores and echoes.
For a text index the text keys are replaced by the internal marker fields
_fts/_ftsx (spec section 4.2: a fixed sentinel field name the database
injects); otherwise the key document is echoed as sent. -/
def simKeyDoc (cmd : IndexCreateCommand) : List (String × BsonValue) :=
  if simIsText cmd then
    cmd.keys.filter (fun e => !bsonEqString e.2 "text")
      ++ [("_fts", .str "text"), ("_ftsx", .int32 1)]
  else cmd.keys

/-- Modelled from the spec: the weights document the server computes for a
text index — the declared weights when the command carried them, otherwise
the server default weight 1 for every text key (spec section 4.2 step 1:
every weighted field becomes one declared key of type text). -/
def simWeights (cmd : IndexCreateCommand) : List (String × BsonValue) :=
  match cmd.weights with
  | some ws => ws.map (fun e => (e.1, BsonValue.int32 e.2))
  | none => (simTextFields cmd).map (fun e => (e.1, BsonValue.int32 1))

/-- Modelled from the spec: the text-index bookkeeping fields the server
echoes for a text index, with its documented defaults when the command left
them unset. -/
def simTextBlock (cmd : IndexCreateCommand) : List (String × BsonValue) :=
  if simIsText cmd then
    [("weights", .doc (simWeights cmd)),
     ("default_language", .str (cmd.defaultLanguage.getD "english")),
     ("language_override", .str (cmd.languageOverride.getD "language")),
     ("textIndexVersion", .int32 (cmd.textIndexVersion.getD 3))]
  else []

/-- The BSON document a stored Collation is echoed back as. -/
def collationToBson (c : Collation) : List (String × BsonValue) :=
  [("locale", .str c.locale), ("caseLevel", .bool c.caseLevel),
   ("caseFirst", .str c.caseFirst), ("strength", .int32 c.strength),
   ("numericOrdering", .bool c.numericOrdering), ("alternate", .str c.alternate),
   ("maxVariable", .str c.maxVariable), ("backwards", .bool c.backwards)]

/-- Modelled from the spec: simulate-database (spec section 8) — the raw
listing entry the database returns for an index created with the given
command: the server-computed format version, the stored key document, the
name, and an echo of every option the command carried. -/
def simulateDatabase (cmd : IndexCreateCommand) : List (String × BsonValue) :=
  ("v", .int32 cmd.version) ::
  ("key", .doc (simKeyDoc cmd)) ::
  ("name", .str cmd.name) ::
  (optEntry "unique" (cmd.unique.map .bool) ++
   (optEntry "sparse" (cmd.sparse.map .bool) ++
    (optEntry "hidden" (cmd.hidden.map .bool) ++
     (optEntry "expireAfterSeconds" (cmd.expireAfterSeconds.map .int32) ++
      (simTextBlock cmd ++
       (optEntry "bits" (cmd.bits.map .int32) ++
        (optEntry "min" (cmd.min.map .double) ++
         (optEntry "max" (cmd.max.map .double) ++
          (optEntry "wildcardProjection"
              (cmd.wildcardProjection.map
                (fun p => .doc (p.map (fun e => (e.1, BsonValue.int32 e.2))))) ++
           (optEntry "partialFilterExpression"
               (cmd.partialFilterExpression.map .doc) ++
            optEntry "collation"
              (cmd.collation.map (fun c => .doc (collationToBson c)))))))))))))

/-- Reconcile(simulate-database(Normalize(declared))): create the index, read
it back through the one-entry listing the simulated database serves. -/
def roundTrip (idx : Index) : Except ClientError Index :=
  getIndexFromListing [simulateDatabase (buildIndexModel idx)]
    ⟨idx.name, idx.database, idx.collection⟩

/-- The key list the round trip reproduces. -/
def roundTripKeys (idx : Index) : Except ClientError (List IndexKey) :=
  (roundTrip idx).map Index.keys

/-- CollationModel from the provider's index resource: every non-required
attribute is tri-state in the plan, hence Option here. -/
structure CollationModel where
  locale : String
  caseLevel : Option Bool := none
  caseFirst : Option String := none
  strength : Option Int := none
  numericOrdering : Option Bool := none
  alternate : Option String := none
  maxVariable : Option String := none
  backwards : Option Bool := none
deriving DecidableEq, Repr

/-- CollationModel.toMongoCollation: unset attributes become the driver
struct's Go zero values. -/
def CollationModel.toMongoCollation (c : CollationModel) : Collation :=
  { locale := c.locale
    caseLevel := c.caseLevel.getD false
    caseFirst := c.caseFirst.getD ""
    strength := c.strength.getD 0
    numericOrdering := c.numericOrdering.getD false
    alternate := c.alternate.getD ""
    maxVariable := c.maxVariable.getD ""
    backwards := c.backwards.getD false }

/-- IndexResourceModel of the map-typed provider variant: every optional
attribute is a Terraform null-or-value, i.e. an Option.  Weights, projection
and the partial filter are Terraform maps (string keys). -/
structure IndexResourceModel where
  database : String
  collection : String
  name : String
  keys : List IndexKey
  collation : Option CollationModel := none
  wildcardProjection : Option (List (String × Int)) := none
  partialFilterExpression : Option (List (String × String)) := none
  unique : Option Bool := none
  sparse : Option Bool := none
  hidden : Option Bool := none
  expireAfterSeconds : Option Int := none
  sphereVersion : Option Int := none
  version : Option Int := none
  bits : Option Int := none
  min : Option Rat := none
  max : Option Rat := none
  weights : Option (List (String × Int)) := none
  defaultLanguage : Option String := none
  languageOverride : Option String := none
  textIndexVersion : Option Int := none
deriving DecidableEq

/-- Go strconv.ParseInt(v, 10, 64): optional sign, then digits. -/
def parseGoInt? (v : String) : Option Int :=
  let sign : Int := if strHasPrefix v "-" then -1 else 1
  let body := if strHasPrefix v "-" ∨ strHasPrefix v "+" then v.data.drop 1 else v.data
  match digitsToNat? body with
  | some n => some (sign * n)
  | none => none

/-- Decimal parser standing in for Go strconv.ParseFloat inside
stringMapToMongoTypes: plain signed decimal forms (digits with one optional
fractional part); exponent and special forms are not modelled (no property
exercises them). -/
def parseDecimal? (s : String) : Option Rat :=
  let sign : Int := if strHasPrefix s "-" then -1 else 1
  let body := if strHasPrefix s "-" ∨ strHasPrefix s "+" then s.data.drop 1 else s.data
  match findSplit ['.'] body with
  | some (ip, fp) =>
    if (findSplit ['.'] fp).isSome then none
    else
      match digitsToNat? (ip ++ fp) with
      | some n => some ((sign * n : Int) / ((10 : Rat) ^ fp.length))
      | none => none
  | none => none

/-- One value conversion of stringMapToMongoTypes (provider index resource):
"true"/"false" become bools, integers parse via ParseInt, decimals via
ParseFloat, everything else stays a string. -/
def parseGoValue (v : String) : BsonValue :=
  if v = "true" ∨ v = "false" then .bool (v = "true")
  else
    match parseGoInt? v with
    | some n => .int64 n
    | none =>
      match parseDecimal? v with
      | some q => .double q
      | none => .str v

/-- stringMapToMongoTypes from the provider index resource. -/
def stringMapToMongoTypes (strMap : List (String × String)) :
    List (String × BsonValue) :=
  strMap.map (fun e => (e.1, parseGoValue e.2))

/-- The plan-to-client conversion inside the provider's Create (the map-typed
variant): every set plan attribute is copied, every unset one leaves the Go
zero value behind. -/
def planToIndex (plan : IndexResourceModel) : Index :=
  { name := plan.name
    database := plan.database
    collection := plan.collection
    keys := plan.keys
    options :=
      { unique := plan.unique.getD false
        sparse := plan.sparse.getD false
        hidden := plan.hidden.getD false
        expireAfterSeconds := plan.expireAfterSeconds.getD 0
        sphereVersion := plan.sphereVersion.getD 0
        bits := plan.bits.getD 0
        min := plan.min.getD 0
        max := plan.max.getD 0
        weights := plan.weights
        defaultLanguage := plan.defaultLanguage.getD ""
        languageOverride := plan.languageOverride.getD ""
        textIndexVersion := plan.textIndexVersion.getD 0
        collation := plan.collation.map CollationModel.toMongoCollation
        wildcardProjection := plan.wildcardProjection.getD []
        partialFilterExpression :=
          match plan.partialFilterExpression with
          | some m => stringMapToMongoTypes m
          | none => []
        version := 0 } }

/-- The diagnostics IndexResource.ValidateConfig (map-typed variant) can add;
each corresponds to one AddError site and models the spec's
ConfigurationError. -/
inductive ValidationError where
  | ttlWildcard
  | ttlNoDateField
  | wildcardProjectionValue (field : String) (value : Int)
  | wildcardProjectionMixed
  | weightNotPositive (field : String) (weight : Int)
  | textIndexVersionRange
  | pfeUnsupportedOperator (op : String)
deriving DecidableEq, Repr

/-- The TTL date-field heuristic: the lowercased field name ends in at, date
or time. -/
def hasDateSuffix (field : String) : Bool :=
  strHasSuffix (strToLower field) "at" || strHasSuffix (strToLower field) "date"
    || strHasSuffix (strToLower field) "time"

/-- The TTL block of ValidateConfig: wildcard incompatibility first, then the
date-field heuristic. -/
def validateTTL (c : IndexResourceModel) : Option ValidationError :=
  if c.expireAfterSeconds.isSome then
    if c.keys.any (fun k => k.type == "wildcard") then some .ttlWildcard
    else if !(c.keys.any (fun k => hasDateSuffix k.field)) then some .ttlNoDateField
    else none
  else none

/-- The wildcard-projection block of ValidateConfig: the loop errors on the
first value outside {0,1}, else on mixed polarity. -/
def validateWildcardProjection (c : IndexResourceModel) : Option ValidationError :=
  match c.wildcardProjection with
  | none => none
  | some proj =>
    match proj.find? (fun e => !(e.2 == 1) && !(e.2 == 0)) with
    | some e => some (.wildcardProjectionValue e.1 e.2)
    | none =>
      if proj.any (fun e => e.2 == 1) && proj.any (fun e => e.2 == 0) then
        some .wildcardProjectionMixed
      else none

/-- The text block of ValidateConfig: positive weights, then the version range. -/
def validateText (c : IndexResourceModel) : Option ValidationError :=
  if c.keys.any (fun k => k.type == "text") then
    match (match c.weights with
           | some ws => ws.find? (fun (e : String × Int) => decide (e.2 ≤ 0))
           | none => none) with
    | some e => some (.weightNotPositive e.1 e.2)
    | none =>
      match c.textIndexVersion with
      | some v => if v < 1 ∨ v > 3 then some .textIndexVersionRange else none
      | none => none
  else none

/-- validOperators: the partial-filter operator allow-list shared by both
provider variants. -/
def validOperators : List String :=
  ["$eq", "$exists", "$gt", "$gte", "$lt", "$lte", "$type", "$and", "$or", "$in"]

/-- The per-key operator extraction of the map-typed ValidateConfig variant:
keys containing ".$" yield "$" plus the piece after the first ".$". -/
def pfeKeyBadOp (k : String) : Option String :=
  match findSplit ".$".data k.data with
  | none => none
  | some (_, post) =>
    let p1 : List Char :=
      match findSplit ".$".data post with
      | some (pre, _) => pre
      | none => post
    let op := "$" ++ (⟨p1⟩ : String)
    if validOperators.contains op then none else some op

/-- The partial-filter block of the map-typed ValidateConfig variant. -/
def validateConfigPfe (c : IndexResourceModel) : Option ValidationError :=
  match c.partialFilterExpression with
  | none => none
  | some m =>
    match m.findSome? (fun e => pfeKeyBadOp e.1) with
    | some op => some (.pfeUnsupportedOperator op)
    | none => none

/-- IndexResource.ValidateConfig (map-typed variant): the checks run in
source order and the first AddError wins (the Go code returns after each). -/
def validateConfig (c : IndexResourceModel) : Option ValidationError :=
  match validateTTL c with
  | some e => some e
  | none =>
    match validateWildcardProjection c with
    | some e => some e
    | none =>
      match validateText c with
      | some e => some e
      | none => validateConfigPfe c

/-- A decoded JSON value as Go's encoding/json produces it for an
interface{} target (the JSON-string provider variant's partial filter). -/
inductive JsonValue where
  | null
  | bool (b : Bool)
  | num (q : Rat)
  | str (s : String)
  | arr (elems : List JsonValue)
  | obj (entries : List (String × JsonValue))

/-- checkOperators from IndexResource.ValidateConfig (JSON-string variant):
walk the filter document; a map key starting with "$" outside the allow-list
stops the walk with that operator; recursion descends into map values and
slice items. -/
def checkOperators : JsonValue → Except String Unit
  | .obj [] => .ok ()
  | .obj ((k, v) :: rest) =>
    if strHasPrefix k "$" && !(validOperators.contains k) then .error k
    else
      match checkOperators v with
      | .error e => .error e
      | .ok _ => checkOperators (.obj rest)
  | .arr [] => .ok ()
  | .arr (v :: rest) =>
    match checkOperators v with
    | .error e => .error e
    | .ok _ => checkOperators (.arr rest)
  | _ => .ok ()

/-- Follows the spec's words: every key beginning with "$" — including keys
inside nested sub-documents and inside sequences — belongs to the allow-list. -/
def allOpsAllowed : JsonValue → Bool
  | .obj [] => true
  | .obj ((k, v) :: rest) =>
    (!(strHasPrefix k "$") || validOperators.contains k)
      && allOpsAllowed v && allOpsAllowed (.obj rest)
  | .arr [] => true
  | .arr (v :: rest) => allOpsAllowed v && allOpsAllowed (.arr rest)
  | _ => true

/-- Whether a string occurs as a map key anywhere in the document. -/
def opOccursAsKey (op : String) : JsonValue → Bool
  | .obj [] => false
  | .obj ((k, v) :: rest) =>
    k == op || opOccursAsKey op v || opOccursAsKey op (.obj rest)
  | .arr [] => false
  | .arr (v :: rest) => opOccursAsKey op v || opOccursAsKey op (.arr rest)
  | _ => false

/-- Errors of the external driver's drop operation as the server produces
them. -/
inductive DriverError where
  | indexNotFound (name : String)
  | other (msg : String)
deriving DecidableEq, Repr

/-- What Client.DeleteIndex can hand back to its caller: nothing, the raw
driver error (surfaced verbatim), or a client-made NotFoundError — included
so the theorems can state that DeleteIndex never produces one. -/
inductive DeleteOutcome where
  | ok
  | driver (e : DriverError)
  | notFound (name : String) (t : String)
deriving DecidableEq, Repr

/-- Modelled from the spec: the external driver's DropOne against a
collection holding the given index names — the server rejects a missing name
with its IndexNotFound error, which the driver returns raw (spec sections 7
and 9: variants that do not check for it simply surface the raw database
error). -/
def simDropOne (indexNames : List String) (name : String) :
    Except DriverError (List String) :=
  if indexNames.contains name then .ok (indexNames.filter (fun n => !(n == name)))
  else .error (.indexNotFound name)

/-- Client.DeleteIndex (internal/mongodb/index.go lines 322-332): call DropOne
and return its error unmodified. -/
def deleteIndex (indexNames : List String) (opts : GetIndexOptions) : DeleteOutcome :=
  match simDropOne indexNames opts.name with
  | .error e => .driver e
  | .ok _ => .ok

/-- Go's interface comparison rawValue == someInt64. -/
def bsonEqInt64 (v : BsonValue) (n : Int) : Bool :=
  match v with
  | .int64 m => m == n
  | _ => false

/-- Go's interface comparison rawValue == someFloat64. -/
def bsonEqDouble (v : BsonValue) (q : Rat) : Bool :=
  match v with
  | .double r => r == q
  | _ => false

/-- The key-type switch of convertBsonToIndex (the older reconciler variant
in internal/mongodb/types_index.go): numeric 1 and -1 of any numeric dynamic
type map to "1"/"-1", "2dsphere" and "text" pass through, and the default
case maps everything else to "1". -/
def convertBsonKeyType (v : BsonValue) : String :=
  if bsonEqInt32 v 1 || bsonEqInt64 v 1 || bsonEqDouble v 1 then "1"
  else if bsonEqInt32 v (-1) || bsonEqInt64 v (-1) || bsonEqDouble v (-1) then "-1"
  else if bsonEqString v "2dsphere" then "2dsphere"
  else if bsonEqString v "text" then "text"
  else "1"

/-- A concrete plan used to exhibit the tri-state collapse of the value-typed
variant. -/
def triStatePlanBase : IndexResourceModel :=
  { database := "db", collection := "coll", name := "idx_ttl",
    keys := [⟨"createdAt", "1"⟩] }

/-- A concrete declared hashed index for the round-trip property. -/
def hashedRoundTripIndex : Index :=
  { name := "idx_hashed", database := "db", collection := "coll",
    keys := [⟨"user_id", "hashed"⟩], options := {} }

/-- A concrete declared 2d index for the round-trip property. -/
def twoDRoundTripIndex : Index :=
  { name := "idx_2d", database := "db", collection := "coll",
    keys := [⟨"loc", "2d"⟩], options := {} }

/-- A concrete TTL index declared hidden, for the round-trip property. -/
def ttlHiddenRoundTripIndex : Index :=
  { name := "idx_ttl", database := "db", collection := "coll",
    keys := [⟨"createdAt", "1"⟩],
    options := { hidden := true, expireAfterSeconds := 3600 } }

/-- A concrete plain ascending key declared on the wildcard path. -/
def dollarPlainRoundTripIndex : Index :=
  { name := "idx_dollar", database := "db", collection := "coll",
    keys := [⟨"$**", "1"⟩], options := {} }

/-- A concrete text index with a declared weight on a different field. -/
def weightedTextRoundTripIndex : Index :=
  { name := "idx_wtext", database := "db", collection := "coll",
    keys := [⟨"title", "text"⟩],
    options := { weights := some [("body", 2)] } }

/-- A concrete text index without declared weights. -/
def plainTextRoundTripIndex : Index :=
  { name := "idx_text", database := "db", collection := "coll",
    keys := [⟨"title", "text"⟩], options := {} }

/-- A concrete index with a numeric partial-filter value. -/
def pfeRoundTripIndex : Index :=
  { name := "idx_pfe", database := "db", collection := "coll",
    keys := [⟨"status", "1"⟩],
    options := { partialFilterExpression := [("rating", .int32 5)] } }

/-- A concrete 2dsphere index with a declared sphere version. -/
def sphereVersionRoundTripIndex : Index :=
  { name := "idx_sphere", database := "db", collection := "coll",
    keys := [⟨"loc", "2dsphere"⟩], options := { sphereVersion := 3 } }

/-- A concrete plain index exercising the reproduced option fields. -/
def plainRoundTripWitnessIndex : Index :=
  { name := "idx_plain", database := "db", collection := "coll",
    keys := [⟨"a", "1"⟩, ⟨"b", "-1"⟩],
    options := { unique := true,
                 collation := some { locale := "en", caseLevel := false,
                                     caseFirst := "off", strength := 3,
                                     numericOrdering := false,
                                     alternate := "non-ignorable",
                                     maxVariable := "punct", backwards := false } } }

/-- The index shapes for which the round trip is claimed to reproduce the
declared keys: plain ascending, descending and 2dsphere key lists (away from
the wildcard path), the wildcard index on its path, and text indexes with
server-computed weights. -/
def goodKindIndex (idx : Index) : Prop :=
  ((∀ k ∈ idx.keys, k.type = "1" ∨ k.type = "-1" ∨ k.type = "2dsphere") ∧
    ∀ k ∈ idx.keys, k.field ≠ "$**") ∨
  idx.keys = [⟨"$**", "wildcard"⟩] ∨
  (idx.keys ≠ [] ∧ (∀ k ∈ idx.keys, k.type = "text") ∧ idx.options.weights = none)

/-! ## Theorems -/

/-- C2: for every declared Index, the index-creation command emitted by
CreateIndex carries index-format version 2 (the fixed DefaultIndexVersion
constant), regardless of any version-related value present in the declared
options. -/
theorem createIndex_version_always_two (idx : Index) :
    (buildIndexModel idx).version = 2 ∧ (buildIndexModel idx).version = DefaultIndexVersion :=
  ⟨rfl, rfl⟩

/-- C5 counterexample: the Normalizer does not map the hashed tag to the
driver string "hashed" — it falls through the switch default and emits 1. -/
theorem toBson_hashed_cex :
    IndexKeys.toBson [⟨"user_id", "hashed"⟩] = [("user_id", .int32 1)] ∧
    IndexKeys.toBson [⟨"user_id", "hashed"⟩] ≠ [("user_id", .str "hashed")] := by
  refine ⟨rfl, ?_⟩
  intro h
  have h2 := List.head_eq_of_cons_eq h
  have h3 := congrArg Prod.snd h2
  simp only at h3
  exact BsonValue.noConfusion h3

/-- C5 amended: the Normalizer maps declared tags as ascending ("1"/"asc")
to 1, descending ("-1"/"desc") to -1, text to "text", 2dsphere to
"2dsphere", wildcard to 1 on the declared field path — and hashed (like any
other unrecognized tag, e.g. 2d) falls through the default case to 1. -/
theorem toBson_tag_mapping (f : String) :
    IndexKeys.toBson [⟨f, "1"⟩] = [(f, .int32 1)] ∧
    IndexKeys.toBson [⟨f, "asc"⟩] = [(f, .int32 1)] ∧
    IndexKeys.toBson [⟨f, "-1"⟩] = [(f, .int32 (-1))] ∧
    IndexKeys.toBson [⟨f, "desc"⟩] = [(f, .int32 (-1))] ∧
    IndexKeys.toBson [⟨f, "text"⟩] = [(f, .str "text")] ∧
    IndexKeys.toBson [⟨f, "2dsphere"⟩] = [(f, .str "2dsphere")] ∧
    IndexKeys.toBson [⟨f, "wildcard"⟩] = [(f, .int32 1)] ∧
    IndexKeys.toBson [⟨f, "hashed"⟩] = [(f, .int32 1)] ∧
    IndexKeys.toBson [⟨f, "2d"⟩] = [(f, .int32 1)] :=
  ⟨rfl, rfl, rfl, rfl, rfl, rfl, rfl, rfl, rfl⟩

/-- C4 counterexample: two distinguishable plans — sparse explicitly false
versus sparse unset — produce the identical declared Index and the identical
emitted create command: the explicit false is collapsed by the zero-value
check. -/
theorem triState_sparse_collapse_cex :
    { triStatePlanBase with sparse := some false } ≠
      { triStatePlanBase with sparse := none } ∧
    planToIndex { triStatePlanBase with sparse := some false } =
      planToIndex { triStatePlanBase with sparse := none } ∧
    buildIndexModel (planToIndex { triStatePlanBase with sparse := some false }) =
      buildIndexModel (planToIndex { triStatePlanBase with sparse := none }) :=
  ⟨by decide, rfl, rfl⟩

/-- C4 amended: the optional settings are not tri-state end-to-end in the
value-typed variant: an explicitly false boolean (sparse) and an explicitly
zero numeric (min) are collapsed to the unset representation by the
plan-to-index conversion, for every surrounding plan. -/
theorem triState_zero_value_collapse (plan : IndexResourceModel) :
    planToIndex { plan with sparse := some false } =
      planToIndex { plan with sparse := none } ∧
    planToIndex { plan with min := some 0 } =
      planToIndex { plan with min := none } :=
  ⟨rfl, rfl⟩

/-- C10: Client.DeleteIndex returns the driver's drop result unmodified —
a missing index surfaces as the raw driver IndexNotFound error (never as the
client NotFoundError and never swallowed as a success), and a successful
drop returns no error. -/
theorem deleteIndex_passthrough (indexNames : List String) (opts : GetIndexOptions) :
    (indexNames.contains opts.name = false →
      deleteIndex indexNames opts = .driver (.indexNotFound opts.name)) ∧
    (∀ n t, deleteIndex indexNames opts ≠ .notFound n t) ∧
    (indexNames.contains opts.name = true → deleteIndex indexNames opts = .ok) := by
  refine ⟨?_, ?_, ?_⟩
  · intro h
    have h2 : opts.name ∉ indexNames := by simpa using h
    simp [deleteIndex, simDropOne, h2]
  · intro n t
    by_cases h2 : opts.name ∈ indexNames
    · simp [deleteIndex, simDropOne, h2]
    · simp [deleteIndex, simDropOne, h2]
  · intro h
    have h2 : opts.name ∈ indexNames := by simpa using h
    simp [deleteIndex, simDropOne, h2]

/-- C10 witness: dropping against a collection without the index surfaces the
raw driver error; dropping an existing index succeeds. -/
theorem deleteIndex_passthrough_witness :
    deleteIndex ["other_1"] ⟨"idx_missing", "db", "coll"⟩ =
      .driver (.indexNotFound "idx_missing") ∧
    deleteIndex ["idx_a"] ⟨"idx_a", "db", "coll"⟩ = .ok :=
  ⟨(deleteIndex_passthrough ["other_1"] ⟨"idx_missing", "db", "coll"⟩).1 (by decide),
   (deleteIndex_passthrough ["idx_a"] ⟨"idx_a", "db", "coll"⟩).2.2 (by decide)⟩

/-- C3: a declared configuration with expire-after-seconds set and a wildcard
key in the key list is always rejected by ValidateConfig with the
TTL-wildcard ConfigurationError, whatever the other field contents. -/
theorem validateConfig_ttl_wildcard (c : IndexResourceModel)
    (heas : c.expireAfterSeconds.isSome = true)
    (hw : c.keys.any (fun k => k.type == "wildcard") = true) :
    validateConfig c = some .ttlWildcard := by
  simp [validateConfig, validateTTL, heas, hw]

/-- C3 witness: a concrete TTL-plus-wildcard configuration is rejected. -/
theorem validateConfig_ttl_wildcard_witness :
    validateConfig
      { database := "db", collection := "coll", name := "i",
        keys := [⟨"$**", "wildcard"⟩], expireAfterSeconds := some 3600 } =
      some .ttlWildcard :=
  validateConfig_ttl_wildcard _ (by decide) (by decide)

/-- The wildcard-projection validator never produces a TTL diagnostic. -/
theorem validateWildcardProjection_not_ttl (c : IndexResourceModel) :
    validateWildcardProjection c ≠ some .ttlNoDateField := by
  unfold validateWildcardProjection
  split
  · simp
  · split
    · simp
    · split <;> simp

/-- The text validator never produces a TTL diagnostic. -/
theorem validateText_not_ttl (c : IndexResourceModel) :
    validateText c ≠ some .ttlNoDateField := by
  unfold validateText
  split
  · split
    · simp
    · split
      · split <;> simp
      · simp
  · simp

/-- The partial-filter validator never produces a TTL diagnostic. -/
theorem validateConfigPfe_not_ttl (c : IndexResourceModel) :
    validateConfigPfe c ≠ some .ttlNoDateField := by
  unfold validateConfigPfe
  split
  · simp
  · split <;> simp

/-- C8: with expire-after-seconds set, a key list without any field name
ending (case-insensitively) in at/date/time always fails validation; a key
list containing such a field never triggers this specific date-field
diagnostic. -/
theorem validateConfig_ttl_date_check (c : IndexResourceModel)
    (heas : c.expireAfterSeconds.isSome = true) :
    (c.keys.any (fun k => hasDateSuffix k.field) = false →
      (validateConfig c).isSome = true) ∧
    (c.keys.any (fun k => hasDateSuffix k.field) = true →
      validateConfig c ≠ some .ttlNoDateField) := by
  constructor
  · intro hnodate
    by_cases hw : c.keys.any (fun k => k.type == "wildcard") = true
    · simp [validateConfig, validateTTL, heas, hw]
    · simp only [Bool.not_eq_true] at hw
      simp [validateConfig, validateTTL, heas, hw, hnodate]
  · intro hdate
    by_cases hw : c.keys.any (fun k => k.type == "wildcard") = true
    · simp [validateConfig, validateTTL, heas, hw]
    · simp only [Bool.not_eq_true] at hw
      have httl : validateTTL c = none := by
        simp [validateTTL, heas, hw, hdate]
      unfold validateConfig
      rw [httl]
      cases hpw : validateWildcardProjection c with
      | some e =>
        have := validateWildcardProjection_not_ttl c
        rw [hpw] at this
        simpa using this
      | none =>
        cases hvt : validateText c with
        | some e =>
          have := validateText_not_ttl c
          rw [hvt] at this
          simpa using this
        | none =>
          exact validateConfigPfe_not_ttl c

/-- C8 witness: a TTL index on a key list without a date-suffixed field is
rejected, and one on createdAt does not trigger the date-field diagnostic. -/
theorem validateConfig_ttl_date_check_witness :
    (validateConfig
      { database := "db", collection := "coll", name := "i1",
        keys := [⟨"foo", "1"⟩], expireAfterSeconds := some 60 }).isSome = true ∧
    validateConfig
      { database := "db", collection := "coll", name := "i2",
        keys := [⟨"createdAt", "1"⟩], expireAfterSeconds := some 60 } ≠
      some .ttlNoDateField :=
  ⟨(validateConfig_ttl_date_check _ (by decide)).1 (by decide),
   (validateConfig_ttl_date_check _ (by decide)).2 (by decide)⟩

/-- C6 counterexample: the GetIndex reconciler does not classify a raw key
value outside the recognized set as ascending — integer 3 is stringified to
"3", not mapped to "1". -/
theorem getIndex_fallback_asymmetry_cex :
    (getIndexFromListing [[("name", .str "i"), ("key", .doc [("f", .int32 3)])]]
        ⟨"i", "db", "coll"⟩).map Index.keys = .ok [⟨"f", "3"⟩] ∧
    (getIndexFromListing [[("name", .str "i"), ("key", .doc [("f", .int32 3)])]]
        ⟨"i", "db", "coll"⟩).map Index.keys ≠ .ok [⟨"f", "1"⟩] :=
  ⟨rfl, fun h => by
    have h1 : (getIndexFromListing [[("name", .str "i"), ("key", .doc [("f", .int32 3)])]]
        ⟨"i", "db", "coll"⟩).map Index.keys = .ok [⟨"f", "3"⟩] := rfl
    rw [h1] at h
    have h2 := Except.ok.inj h
    have h3 : ("3" : String) = "1" :=
      congrArg (fun l => (l.headD ⟨"", ""⟩).type) h2
    exact absurd h3 (by decide)⟩

/-- C6 amended: the silent fallback is not symmetric across the two sides
that the source keeps: the Normalizer maps every unrecognized declared tag
to 1, and the older reconciler (convertBsonToIndex) maps every raw value
outside its recognized set to "1", but the current reconciler (GetIndex)
stringifies such values — integer 3 classifies as "3" — and none of the
three fails. -/
theorem fallback_policy :
    (∀ t : String,
      t ∉ (["1", "asc", "-1", "desc", "2dsphere", "wildcard", "text"] : List String) →
      keyTypeToBsonValue t = .int32 1) ∧
    (∀ v : BsonValue,
      bsonEqInt32 v 1 = false → bsonEqInt64 v 1 = false → bsonEqDouble v 1 = false →
      bsonEqInt32 v (-1) = false → bsonEqInt64 v (-1) = false →
      bsonEqDouble v (-1) = false → bsonEqString v "2dsphere" = false →
      bsonEqString v "text" = false →
      convertBsonKeyType v = "1") ∧
    (classifyKeyValue "f" (.int32 3) = "3") := by
  refine ⟨?_, ?_, rfl⟩
  · intro t ht
    simp only [List.mem_cons, List.not_mem_nil, or_false, not_or] at ht
    obtain ⟨h1, h2, h3, h4, h5, h6, h7⟩ := ht
    simp [keyTypeToBsonValue, h1, h2, h3, h4, h5, h6, h7]
  · intro v e1 e2 e3 e4 e5 e6 e7 e8
    simp [convertBsonKeyType, e1, e2, e3, e4, e5, e6, e7, e8]

/-- C6 amended witness: the hashed tag normalizes to 1; the older reconciler
maps the raw int32 3 to "1". -/
theorem fallback_policy_witness :
    keyTypeToBsonValue "hashed" = .int32 1 ∧ convertBsonKeyType (.int32 3) = "1" :=
  ⟨fallback_policy.1 "hashed" (by decide),
   fallback_policy.2.1 (.int32 3) rfl rfl rfl rfl rfl rfl rfl rfl⟩

/-- C7 counterexample: NotFoundError is not the only error a retrieved
listing can produce — a matching entry whose collation document misses the
asserted fields aborts GetIndex (Go panic) instead of degrading by
omission. -/
theorem getIndex_collation_abort_cex :
    getIndexFromListing
        [[("name", .str "i"), ("key", .doc [("f", .int32 1)]),
          ("collation", .doc [])]] ⟨"i", "db", "coll"⟩ =
      .error .assertFailed ∧
    (Except.error ClientError.assertFailed : Except ClientError Index) ≠
      .error (.notFound "i" "index") :=
  ⟨rfl, fun h => ClientError.noConfusion (Except.error.inj h)⟩

/-- C7 amended: a retrieved listing without an entry whose name field holds
the requested name makes GetIndex return NotFoundError carrying that name;
malformed option fields of a matched entry degrade by omission (a mistyped
unique is dropped) — except a present collation document with missing or
mistyped members, which aborts instead. -/
theorem getIndex_notFound_on_missing
    (listing : List (List (String × BsonValue))) (opts : GetIndexOptions)
    (h : ∀ raw ∈ listing, nameMatches raw opts.name = false) :
    getIndexFromListing listing opts = .error (.notFound opts.name "index") ∧
    (getIndexFromListing
        [[("name", .str "deg"), ("key", .doc [("f", .int32 1)]),
          ("unique", .str "yes")]] ⟨"deg", "db", "coll"⟩).map
      (fun i => i.options.unique) = .ok false := by
  constructor
  · unfold getIndexFromListing
    have hfind : listing.find? (fun raw => nameMatches raw opts.name) = none := by
      rw [List.find?_eq_none]
      intro raw hraw
      simp [h raw hraw]
    rw [hfind]
  · rfl

/-- C7 amended witness: a listing with a single differently-named entry
yields NotFoundError carrying the requested name. -/
theorem getIndex_notFound_on_missing_witness :
    getIndexFromListing [[("name", BsonValue.str "idx_other")]]
        ⟨"idx_missing", "db", "coll"⟩ =
      .error (.notFound "idx_missing" "index") :=
  (getIndex_notFound_on_missing [[("name", BsonValue.str "idx_other")]]
      ⟨"idx_missing", "db", "coll"⟩ (by decide)).1

/-- The walk accepts exactly the documents whose operator keys all sit in
the allow-list. -/
theorem checkOperators_ok_iff (j : JsonValue) :
    checkOperators j = .ok () ↔ allOpsAllowed j = true := by
  induction j using checkOperators.induct with
  | case1 => simp [checkOperators, allOpsAllowed]
  | case2 k v rest hk =>
    rw [Bool.and_eq_true, Bool.not_eq_true'] at hk
    have hmem : k ∉ validOperators := by simpa using hk.2
    simp [checkOperators, allOpsAllowed, hk.1, hk.2, hmem]
  | case3 k v rest hk e he ih =>
    have hv : allOpsAllowed v = false := by
      rw [← Bool.not_eq_true]
      intro hall
      have h2 := ih.mpr hall
      rw [he] at h2
      exact Except.noConfusion h2
    have hlhs : checkOperators (.obj ((k, v) :: rest)) ≠ .ok () := by
      simp only [checkOperators, he]
      split <;> simp
    have hrhs : allOpsAllowed (.obj ((k, v) :: rest)) = false := by
      simp [allOpsAllowed, hv]
    rw [hrhs]
    simp [hlhs]
  | case4 k v rest hk a ha ihv ihrest =>
    have hva : checkOperators v = .ok () := by cases a; exact ha
    have hv : allOpsAllowed v = true := ihv.mp hva
    rw [Bool.and_eq_true, Bool.not_eq_true'] at hk
    push_neg at hk
    by_cases hs : strHasPrefix k "$" = true
    · have hmem : k ∈ validOperators := by simpa using hk hs
      simp [checkOperators, allOpsAllowed, hva, hv, hs, hmem, ihrest]
    · simp only [Bool.not_eq_true] at hs
      simp [checkOperators, allOpsAllowed, hva, hv, hs, ihrest]
  | case5 => simp [checkOperators, allOpsAllowed]
  | case6 v rest e he ih =>
    have hv : allOpsAllowed v = false := by
      rw [← Bool.not_eq_true]
      intro hall
      have h2 := ih.mpr hall
      rw [he] at h2
      exact Except.noConfusion h2
    simp [checkOperators, allOpsAllowed, he, hv]
  | case7 v rest a ha ihv ihrest =>
    have hva : checkOperators v = .ok () := by cases a; exact ha
    have hv : allOpsAllowed v = true := ihv.mp hva
    simp [checkOperators, allOpsAllowed, hva, hv, ihrest]
  | case8 x h1 h2 h3 h4 =>
    cases x with
    | null => simp [checkOperators, allOpsAllowed]
    | bool b => simp [checkOperators, allOpsAllowed]
    | num q => simp [checkOperators, allOpsAllowed]
    | str s => simp [checkOperators, allOpsAllowed]
    | obj l =>
      cases l with
      | nil => exact absurd rfl h1
      | cons e rest => exact absurd rfl (h2 e.1 e.2 rest)
    | arr l =>
      cases l with
      | nil => exact absurd rfl h3
      | cons v rest => exact absurd rfl (h4 v rest)

/-- A rejection names a genuinely offending operator: one that occurs as a
key in the document, starts with the operator marker, and is outside the
allow-list. -/
theorem checkOperators_error_spec (j : JsonValue) :
    ∀ op, checkOperators j = .error op →
      strHasPrefix op "$" = true ∧ validOperators.contains op = false ∧
      opOccursAsKey op j = true := by
  induction j using checkOperators.induct with
  | case1 =>
    intro op h
    exact absurd h (by simp [checkOperators])
  | case2 k v rest hk =>
    intro op h
    have hk2 := hk
    rw [Bool.and_eq_true, Bool.not_eq_true'] at hk2
    have hop : op = k := by
      simp only [checkOperators] at h
      rw [hk] at h
      simp only [if_true] at h
      exact (Except.error.inj h).symm
    subst hop
    refine ⟨hk2.1, hk2.2, ?_⟩
    simp [opOccursAsKey]
  | case3 k v rest hk e he ih =>
    intro op h
    have hcondb : (strHasPrefix k "$" && !validOperators.contains k) = false := by
      revert hk
      cases strHasPrefix k "$" && !validOperators.contains k <;> simp
    simp only [checkOperators, hcondb, Bool.false_eq_true, if_false, he] at h
    have hop : e = op := Except.error.inj h
    subst hop
    obtain ⟨hpre, hmem, hocc⟩ := ih e he
    refine ⟨hpre, hmem, ?_⟩
    simp [opOccursAsKey, hocc]
  | case4 k v rest hk a ha ihv ihrest =>
    intro op h
    have hcondb : (strHasPrefix k "$" && !validOperators.contains k) = false := by
      revert hk
      cases strHasPrefix k "$" && !validOperators.contains k <;> simp
    have hva : checkOperators v = .ok () := by cases a; exact ha
    simp only [checkOperators, hcondb, Bool.false_eq_true, if_false, hva] at h
    obtain ⟨hpre, hmem, hocc⟩ := ihrest op h
    refine ⟨hpre, hmem, ?_⟩
    simp only [opOccursAsKey] at hocc ⊢
    simp [hocc]
  | case5 =>
    intro op h
    exact absurd h (by simp [checkOperators])
  | case6 v rest e he ih =>
    intro op h
    simp only [checkOperators, he] at h
    have hop : e = op := Except.error.inj h
    subst hop
    obtain ⟨hpre, hmem, hocc⟩ := ih e he
    refine ⟨hpre, hmem, ?_⟩
    simp [opOccursAsKey, hocc]
  | case7 v rest a ha ihv ihrest =>
    intro op h
    have hva : checkOperators v = .ok () := by cases a; exact ha
    simp only [checkOperators, hva] at h
    obtain ⟨hpre, hmem, hocc⟩ := ihrest op h
    refine ⟨hpre, hmem, ?_⟩
    simp [opOccursAsKey, hocc]
  | case8 x h1 h2 h3 h4 =>
    intro op h
    cases x with
    | null => exact absurd h (by simp [checkOperators])
    | bool b => exact absurd h (by simp [checkOperators])
    | num q => exact absurd h (by simp [checkOperators])
    | str s => exact absurd h (by simp [checkOperators])
    | obj l =>
      cases l with
      | nil => exact absurd rfl h1
      | cons e rest => exact absurd rfl (h2 e.1 e.2 rest)
    | arr l =>
      cases l with
      | nil => exact absurd rfl h3
      | cons v rest => exact absurd rfl (h4 v rest)

/-- C9: the partial-filter walk fails exactly on a document holding a
"$"-prefixed key outside the allow-list — recursing into nested
sub-documents and sequences — and the reported operator is an offending key
of the document; allow-listed documents pass. -/
theorem checkOperators_allowlist :
    (∀ j, checkOperators j = .ok () ↔ allOpsAllowed j = true) ∧
    (∀ j op, checkOperators j = .error op →
      strHasPrefix op "$" = true ∧ validOperators.contains op = false ∧
      opOccursAsKey op j = true) :=
  ⟨checkOperators_ok_iff, checkOperators_error_spec⟩

/-- C9 witness: the spec's two concrete documents — an $eq filter passes,
and a $regex filter is rejected naming $regex, which occurs in the document
and is outside the allow-list. -/
theorem checkOperators_allowlist_witness :
    checkOperators (.obj [("status", .obj [("$eq", .str "x")])]) = .ok () ∧
    (strHasPrefix "$regex" "$" = true ∧ validOperators.contains "$regex" = false ∧
      opOccursAsKey "$regex" (.obj [("status", .obj [("$regex", .str "x")])]) = true) :=
  ⟨(checkOperators_allowlist.1 _).mpr
      (by simp [allOpsAllowed, validOperators, strHasPrefix, List.isPrefixOf]),
   checkOperators_allowlist.2 _ "$regex"
      (by simp [checkOperators, validOperators, strHasPrefix, List.isPrefixOf])⟩



/-- Lookup distributes over document concatenation. -/
theorem lookup_append (a b : List (String × BsonValue)) (k : String) :
    lookup (a ++ b) k =
      match lookup a k with
      | some v => some v
      | none => lookup b k := by
  induction a with
  | nil => simp [lookup]
  | cons e rest ih =>
    by_cases hk : e.1 = k
    · simp [lookup, hk]
    · simp [lookup, hk, ih]

/-- A lookup for a different key walks past an optional echo entry. -/
theorem lookup_optEntry_ne (k k' : String) (v : Option BsonValue)
    (rest : List (String × BsonValue)) (h : ¬(k = k')) :
    lookup (optEntry k v ++ rest) k' = lookup rest k' := by
  cases v <;> simp [optEntry, lookup, h]

/-- A lookup for a key outside the text block walks past it. -/
theorem lookup_simTextBlock_ne (cmd : IndexCreateCommand) (k : String)
    (rest : List (String × BsonValue))
    (h1 : ¬("weights" = k)) (h2 : ¬("default_language" = k))
    (h3 : ¬("language_override" = k)) (h4 : ¬("textIndexVersion" = k)) :
    lookup (simTextBlock cmd ++ rest) k = lookup rest k := by
  unfold simTextBlock
  by_cases ht : simIsText cmd
  · simp [ht, lookup, h1, h2, h3, h4]
  · simp [ht, lookup]

/-- The simulated listing entry serves its key document. -/
theorem lookup_simDb_key (cmd : IndexCreateCommand) :
    lookup (simulateDatabase cmd) "key" = some (.doc (simKeyDoc cmd)) := by
  unfold simulateDatabase
  simp [lookup]

/-- The simulated listing entry serves its name. -/
theorem lookup_simDb_name (cmd : IndexCreateCommand) :
    lookup (simulateDatabase cmd) "name" = some (.str cmd.name) := by
  unfold simulateDatabase
  simp [lookup]

/-- For a text index the simulated listing entry serves the weights document. -/
theorem lookup_simDb_weights (cmd : IndexCreateCommand) (h : simIsText cmd = true) :
    lookup (simulateDatabase cmd) "weights" = some (.doc (simWeights cmd)) := by
  unfold simulateDatabase
  simp only [lookup, if_neg (by decide : ¬("v" = "weights")),
    if_neg (by decide : ¬("key" = "weights")), if_neg (by decide : ¬("name" = "weights"))]
  rw [lookup_optEntry_ne _ _ _ _ (by decide), lookup_optEntry_ne _ _ _ _ (by decide),
    lookup_optEntry_ne _ _ _ _ (by decide), lookup_optEntry_ne _ _ _ _ (by decide)]
  unfold simTextBlock
  rw [if_pos h]
  simp [lookup_append, lookup]

/-- The simulated listing entry serves the collation echo exactly when the
command carried one. -/
theorem lookup_simDb_collation (cmd : IndexCreateCommand) :
    lookup (simulateDatabase cmd) "collation" =
      cmd.collation.map (fun c => .doc (collationToBson c)) := by
  unfold simulateDatabase
  simp only [lookup, if_neg (by decide : ¬("v" = "collation")),
    if_neg (by decide : ¬("key" = "collation")), if_neg (by decide : ¬("name" = "collation"))]
  rw [lookup_optEntry_ne _ _ _ _ (by decide), lookup_optEntry_ne _ _ _ _ (by decide),
    lookup_optEntry_ne _ _ _ _ (by decide), lookup_optEntry_ne _ _ _ _ (by decide)]
  rw [lookup_simTextBlock_ne _ _ _ (by decide) (by decide) (by decide) (by decide)]
  rw [lookup_optEntry_ne _ _ _ _ (by decide), lookup_optEntry_ne _ _ _ _ (by decide),
    lookup_optEntry_ne _ _ _ _ (by decide), lookup_optEntry_ne _ _ _ _ (by decide),
    lookup_optEntry_ne _ _ _ _ (by decide)]
  cases cmd.collation <;> simp [optEntry, lookup]



/-- The eight type assertions all succeed on a server collation echo. -/
theorem extractCollation_collationToBson (c : Collation) :
    extractCollation (collationToBson c) = some c := by
  simp [extractCollation, collationToBson, lookup]

/-- Reconciling the simulated entry recovers the emitted collation without
aborting. -/
theorem reconcileCollation_simDb (cmd : IndexCreateCommand) :
    reconcileCollation (simulateDatabase cmd) = .ok cmd.collation := by
  unfold reconcileCollation
  rw [lookup_simDb_collation]
  cases cmd.collation with
  | none => rfl
  | some c => simp [extractCollation_collationToBson]

/-- The simulated listing entry matches its own name. -/
theorem nameMatches_simDb (cmd : IndexCreateCommand) :
    nameMatches (simulateDatabase cmd) cmd.name = true := by
  unfold nameMatches
  rw [lookup_simDb_name]
  simp [bsonEqString]

/-- The round trip always finds the one simulated entry and reduces to the
key reconstruction. -/
theorem roundTripKeys_eq (idx : Index) :
    roundTripKeys idx = .ok (reconcileKeys (simulateDatabase (buildIndexModel idx))) := by
  unfold roundTripKeys roundTrip getIndexFromListing
  have hname : nameMatches (simulateDatabase (buildIndexModel idx)) idx.name = true :=
    nameMatches_simDb (buildIndexModel idx)
  simp only [List.find?, hname]
  unfold convertRawIndex
  rw [reconcileCollation_simDb]
  rfl

/-- A found binding comes from the document. -/
theorem lookup_mem (d : List (String × BsonValue)) (k : String) (v : BsonValue)
    (h : lookup d k = some v) : ∃ e ∈ d, e.2 = v := by
  induction d with
  | nil => exact absurd h (by simp [lookup])
  | cons e rest ih =>
    unfold lookup at h
    by_cases hk : e.1 = k
    · rw [if_pos hk] at h
      exact ⟨e, List.mem_cons_self _ _, Option.some.inj h⟩
    · rw [if_neg hk] at h
      obtain ⟨e2, he2, hv⟩ := ih h
      exact ⟨e2, List.mem_cons_of_mem _ he2, hv⟩

/-- A key document whose values never compare equal to the text marker does
not look like a text index. -/
theorem ftsMarkerPresent_eq_false (d : List (String × BsonValue))
    (h : ∀ e ∈ d, bsonEqString e.2 "text" = false) :
    ftsMarkerPresent d = false := by
  unfold ftsMarkerPresent
  cases hl : lookup d "_fts" with
  | none => rfl
  | some v =>
    obtain ⟨e, he, hv⟩ := lookup_mem d "_fts" v hl
    have hb : bsonEqString v "text" = false := hv ▸ h e he
    cases v <;> simp_all [bsonEqString]

/-- Away from the wildcard path, GetIndex classifies the normalized plain
values back to the declared tags. -/
theorem classify_plain_keyType (k : IndexKey)
    (ht : k.type = "1" ∨ k.type = "-1" ∨ k.type = "2dsphere")
    (hf : ¬(k.field = "$**")) :
    classifyKeyValue k.field (keyTypeToBsonValue k.type) = k.type := by
  rcases ht with h | h | h <;>
    rw [h] <;>
    simp [keyTypeToBsonValue, classifyKeyValue, bsonEqInt32, fmtValue, hf]

/-- Plain tags never normalize to the text marker value. -/
theorem ktbv_not_text (t : String)
    (ht : t = "1" ∨ t = "-1" ∨ t = "2dsphere") :
    bsonEqString (keyTypeToBsonValue t) "text" = false := by
  rcases ht with h | h | h <;> rw [h] <;> rfl



/-- Round trip of the key list, plain branch. -/
theorem reconcileKeys_plain (idx : Index)
    (ht : ∀ k ∈ idx.keys, k.type = "1" ∨ k.type = "-1" ∨ k.type = "2dsphere")
    (hf : ∀ k ∈ idx.keys, ¬(k.field = "$**")) :
    reconcileKeys (simulateDatabase (buildIndexModel idx)) = idx.keys := by
  set cmd := buildIndexModel idx with hcmd
  have hnotext : ∀ e ∈ cmd.keys, bsonEqString e.2 "text" = false := by
    intro e he
    rw [hcmd] at he
    simp only [buildIndexModel, IndexKeys.toBson, List.mem_map] at he
    obtain ⟨k, hk, rfl⟩ := he
    exact ktbv_not_text k.type (ht k hk)
  have htf : simTextFields cmd = [] :=
    List.filter_eq_nil_iff.mpr (by intro e he; simp [hnotext e he])
  have hit : simIsText cmd = false := by simp [simIsText, htf]
  have hkd : simKeyDoc cmd = cmd.keys := by simp [simKeyDoc, hit]
  unfold reconcileKeys
  rw [lookup_simDb_key, hkd]
  have hm := ftsMarkerPresent_eq_false cmd.keys hnotext
  simp only [hm, Bool.false_eq_true, if_false]
  rw [hcmd]
  show (IndexKeys.toBson idx.keys).map _ = idx.keys
  unfold IndexKeys.toBson
  rw [List.map_map]
  have hcongr :
      idx.keys.map ((fun e => (⟨e.1, classifyKeyValue e.1 e.2⟩ : IndexKey)) ∘
        (fun key => (key.field, keyTypeToBsonValue key.type))) =
      idx.keys.map (fun k => k) :=
    List.map_congr_left (fun k hk => by
      simp only [Function.comp]
      rw [classify_plain_keyType k (ht k hk) (hf k hk)])
  rw [hcongr, List.map_id']

/-- Round trip of the key list, wildcard branch. -/
theorem reconcileKeys_wildcard (idx : Index)
    (hk : idx.keys = [⟨"$**", "wildcard"⟩]) :
    reconcileKeys (simulateDatabase (buildIndexModel idx)) = idx.keys := by
  have hkeys : (buildIndexModel idx).keys = [("$**", BsonValue.int32 1)] := by
    simp [buildIndexModel, IndexKeys.toBson, hk, keyTypeToBsonValue]
  unfold reconcileKeys
  rw [lookup_simDb_key]
  have htf : simTextFields (buildIndexModel idx) = [] := by
    simp [simTextFields, hkeys, bsonEqString]
  have hit : simIsText (buildIndexModel idx) = false := by simp [simIsText, htf]
  have hkd : simKeyDoc (buildIndexModel idx) = [("$**", BsonValue.int32 1)] := by
    simp [simKeyDoc, hit, hkeys]
  rw [hkd]
  have hm : ftsMarkerPresent [("$**", BsonValue.int32 1)] = false := rfl
  simp only [hm, Bool.false_eq_true, if_false]
  rw [hk]
  simp [classifyKeyValue, bsonEqInt32]

/-- Round trip of the key list, text branch. -/
theorem reconcileKeys_text (idx : Index)
    (hne : idx.keys ≠ [])
    (ht : ∀ k ∈ idx.keys, k.type = "text")
    (hw : idx.options.weights = none) :
    reconcileKeys (simulateDatabase (buildIndexModel idx)) = idx.keys := by
  set cmd := buildIndexModel idx with hcmd
  have hkeys : cmd.keys = idx.keys.map (fun k => (k.field, BsonValue.str "text")) := by
    rw [hcmd]
    show IndexKeys.toBson idx.keys = _
    unfold IndexKeys.toBson
    exact List.map_congr_left (fun k hk => by rw [ht k hk]; rfl)
  have halltext : ∀ e ∈ cmd.keys, bsonEqString e.2 "text" = true := by
    intro e he
    rw [hkeys] at he
    simp only [List.mem_map] at he
    obtain ⟨k, hk, rfl⟩ := he
    rfl
  have htf : simTextFields cmd = cmd.keys := List.filter_eq_self.mpr (by
    intro e he
    simp [halltext e he])
  have hne2 : cmd.keys ≠ [] := by
    rw [hkeys]
    simp only [ne_eq, List.map_eq_nil_iff]
    exact hne
  have hit : simIsText cmd = true := by
    simp only [simIsText, htf, Bool.not_eq_true']
    rw [← Bool.not_eq_true]
    simp only [List.isEmpty_iff]
    exact hne2
  have hkd : simKeyDoc cmd = [("_fts", .str "text"), ("_ftsx", .int32 1)] := by
    unfold simKeyDoc
    rw [if_pos hit]
    have hfe : cmd.keys.filter (fun e => !bsonEqString e.2 "text") = [] :=
      List.filter_eq_nil_iff.mpr (by intro e he; simp [halltext e he])
    rw [hfe]
    rfl
  have hwcmd : cmd.weights = none := by
    rw [hcmd]
    show (if isTextIndex idx then idx.options.weights else none) = none
    rw [hw]
    split <;> rfl
  have hsw : simWeights cmd = idx.keys.map (fun k => (k.field, BsonValue.int32 1)) := by
    unfold simWeights
    rw [hwcmd, htf, hkeys, List.map_map]
    rfl
  unfold reconcileKeys
  rw [lookup_simDb_key, hkd]
  have hmarker :
      ftsMarkerPresent [("_fts", BsonValue.str "text"), ("_ftsx", BsonValue.int32 1)] = true := rfl
  have hnotempty :
      (idx.keys.map (fun k => (k.field, BsonValue.int32 1))).isEmpty = false := by
    rw [← Bool.not_eq_true]
    simp only [List.isEmpty_iff, List.map_eq_nil_iff]
    exact hne
  simp only [hmarker, if_true, lookup_simDb_weights cmd hit, hsw, hnotempty,
    Bool.false_eq_true, if_false]
  rw [List.map_map]
  have hcongr :
      idx.keys.map ((fun e => (⟨e.1, "text"⟩ : IndexKey)) ∘
        (fun k => (k.field, BsonValue.int32 1))) = idx.keys.map (fun k => k) :=
    List.map_congr_left (fun k hk => by
      simp only [Function.comp]
      rw [← ht k hk])
  rw [hcongr, List.map_id']

/-- A lookup for the key of an optional echo entry returns it when present. -/
theorem lookup_optEntry_self (k : String) (v : Option BsonValue)
    (rest : List (String × BsonValue)) :
    lookup (optEntry k v ++ rest) k =
      match v with
      | some x => some x
      | none => lookup rest k := by
  cases v <;> simp [optEntry, lookup]

/-- A trailing optional echo entry holds nothing under a different key. -/
theorem lookup_optEntry_last_ne (k k' : String) (v : Option BsonValue)
    (h : ¬(k = k')) : lookup (optEntry k v) k' = none := by
  cases v <;> simp [optEntry, lookup, h]

/-- The simulated listing entry serves the unique echo exactly when the
command carried one. -/
theorem lookup_simDb_unique (cmd : IndexCreateCommand) :
    lookup (simulateDatabase cmd) "unique" = cmd.unique.map BsonValue.bool := by
  unfold simulateDatabase
  simp only [lookup, if_neg (by decide : ¬("v" = "unique")),
    if_neg (by decide : ¬("key" = "unique")), if_neg (by decide : ¬("name" = "unique"))]
  rw [lookup_optEntry_self]
  cases cmd.unique with
  | some b => rfl
  | none =>
    show lookup _ "unique" = none
    rw [lookup_optEntry_ne _ _ _ _ (by decide), lookup_optEntry_ne _ _ _ _ (by decide),
      lookup_optEntry_ne _ _ _ _ (by decide)]
    rw [lookup_simTextBlock_ne _ _ _ (by decide) (by decide) (by decide) (by decide)]
    rw [lookup_optEntry_ne _ _ _ _ (by decide), lookup_optEntry_ne _ _ _ _ (by decide),
      lookup_optEntry_ne _ _ _ _ (by decide), lookup_optEntry_ne _ _ _ _ (by decide),
      lookup_optEntry_ne _ _ _ _ (by decide)]
    exact lookup_optEntry_last_ne _ _ _ (by decide)

/-- The simulated listing entry serves the sparse echo exactly when the
command carried one. -/
theorem lookup_simDb_sparse (cmd : IndexCreateCommand) :
    lookup (simulateDatabase cmd) "sparse" = cmd.sparse.map BsonValue.bool := by
  unfold simulateDatabase
  simp only [lookup, if_neg (by decide : ¬("v" = "sparse")),
    if_neg (by decide : ¬("key" = "sparse")), if_neg (by decide : ¬("name" = "sparse"))]
  rw [lookup_optEntry_ne _ _ _ _ (by decide), lookup_optEntry_self]
  cases cmd.sparse with
  | some b => rfl
  | none =>
    show lookup _ "sparse" = none
    rw [lookup_optEntry_ne _ _ _ _ (by decide), lookup_optEntry_ne _ _ _ _ (by decide)]
    rw [lookup_simTextBlock_ne _ _ _ (by decide) (by decide) (by decide) (by decide)]
    rw [lookup_optEntry_ne _ _ _ _ (by decide), lookup_optEntry_ne _ _ _ _ (by decide),
      lookup_optEntry_ne _ _ _ _ (by decide), lookup_optEntry_ne _ _ _ _ (by decide),
      lookup_optEntry_ne _ _ _ _ (by decide)]
    exact lookup_optEntry_last_ne _ _ _ (by decide)

/-- The simulated listing entry serves the server-stamped format version. -/
theorem lookup_simDb_v (cmd : IndexCreateCommand) :
    lookup (simulateDatabase cmd) "v" = some (.int32 cmd.version) := by
  unfold simulateDatabase
  simp [lookup]

/-- The simulated listing entry serves the wildcard-projection echo exactly
when the command carried one. -/
theorem lookup_simDb_wildcardProjection (cmd : IndexCreateCommand) :
    lookup (simulateDatabase cmd) "wildcardProjection" =
      cmd.wildcardProjection.map
        (fun p => .doc (p.map (fun e => (e.1, BsonValue.int32 e.2)))) := by
  unfold simulateDatabase
  simp only [lookup, if_neg (by decide : ¬("v" = "wildcardProjection")),
    if_neg (by decide : ¬("key" = "wildcardProjection")),
    if_neg (by decide : ¬("name" = "wildcardProjection"))]
  rw [lookup_optEntry_ne _ _ _ _ (by decide), lookup_optEntry_ne _ _ _ _ (by decide),
    lookup_optEntry_ne _ _ _ _ (by decide), lookup_optEntry_ne _ _ _ _ (by decide)]
  rw [lookup_simTextBlock_ne _ _ _ (by decide) (by decide) (by decide) (by decide)]
  rw [lookup_optEntry_ne _ _ _ _ (by decide), lookup_optEntry_ne _ _ _ _ (by decide),
    lookup_optEntry_ne _ _ _ _ (by decide), lookup_optEntry_self]
  cases cmd.wildcardProjection with
  | some p => rfl
  | none =>
    show lookup _ "wildcardProjection" = none
    rw [lookup_optEntry_ne _ _ _ _ (by decide)]
    exact lookup_optEntry_last_ne _ _ _ (by decide)

/-- Reading an int32-valued projection document back recovers the map. -/
theorem filterMap_int32_map (p : List (String × Int)) :
    (p.map (fun e => (e.1, BsonValue.int32 e.2))).filterMap
      (fun e => match e.2 with
        | BsonValue.int32 n => some (e.1, n)
        | _ => none) = p := by
  induction p with
  | nil => rfl
  | cons e rest ih => simp [List.filterMap_cons, ih]

/-- GetIndex reads the unique flag back as declared. -/
theorem reconcileUnique_simDb (idx : Index) :
    (match lookup (simulateDatabase (buildIndexModel idx)) "unique" with
      | some (.bool b) => b
      | _ => false) = idx.options.unique := by
  rw [lookup_simDb_unique (buildIndexModel idx)]
  show (match (if idx.options.unique then some idx.options.unique else none :
      Option Bool).map BsonValue.bool with
    | some (.bool b) => b
    | _ => false) = idx.options.unique
  cases h : idx.options.unique <;> simp [h]

/-- GetIndex reads the sparse flag back as declared. -/
theorem reconcileSparse_simDb (idx : Index) :
    (match lookup (simulateDatabase (buildIndexModel idx)) "sparse" with
      | some (.bool b) => b
      | _ => false) = idx.options.sparse := by
  rw [lookup_simDb_sparse (buildIndexModel idx)]
  show (match (if idx.options.sparse then some idx.options.sparse else none :
      Option Bool).map BsonValue.bool with
    | some (.bool b) => b
    | _ => false) = idx.options.sparse
  cases h : idx.options.sparse <;> simp [h]

/-- GetIndex reads back the stamped format version constant. -/
theorem reconcileVersion_simDb (idx : Index) :
    (match lookup (simulateDatabase (buildIndexModel idx)) "v" with
      | some (.int32 n) => n
      | _ => 0) = DefaultIndexVersion := by
  rw [lookup_simDb_v (buildIndexModel idx)]
  rfl

/-- For a wildcard index, GetIndex reads the projection back as declared. -/
theorem reconcileWildcardProjection_simDb (idx : Index)
    (hw : isWildcardIndex idx = true) :
    (match lookup (simulateDatabase (buildIndexModel idx)) "wildcardProjection" with
      | some (.doc p) =>
        p.filterMap (fun e =>
          match e.2 with
          | .int32 n => some (e.1, n)
          | _ => none)
      | _ => []) = idx.options.wildcardProjection := by
  rw [lookup_simDb_wildcardProjection (buildIndexModel idx)]
  show (match (if isWildcardIndex idx = true ∧ idx.options.wildcardProjection.length > 0 then
      some idx.options.wildcardProjection else none).map
        (fun p => BsonValue.doc (p.map (fun e => (e.1, BsonValue.int32 e.2)))) with
    | some (.doc p) =>
      p.filterMap (fun e =>
        match e.2 with
        | BsonValue.int32 n => some (e.1, n)
        | _ => none)
    | _ => []) = idx.options.wildcardProjection
  by_cases hlen : idx.options.wildcardProjection.length > 0
  · rw [if_pos ⟨hw, hlen⟩]
    exact filterMap_int32_map _
  · rw [if_neg (fun hcontra => hlen hcontra.2)]
    have hnil : idx.options.wildcardProjection = [] := by
      cases hP : idx.options.wildcardProjection with
      | nil => rfl
      | cons a l => rw [hP] at hlen; exact absurd (by simp) hlen
    rw [hnil]
    rfl

/-- The round trip always finds the one simulated entry. -/
theorem roundTrip_eq (idx : Index) :
    roundTrip idx =
      convertRawIndex (simulateDatabase (buildIndexModel idx))
        ⟨idx.name, idx.database, idx.collection⟩ := by
  unfold roundTrip getIndexFromListing
  have hname : nameMatches (simulateDatabase (buildIndexModel idx)) idx.name = true :=
    nameMatches_simDb (buildIndexModel idx)
  simp only [List.find?, hname]

/-- The fields of a successfully converted listing entry, as GetIndex
computes them. -/
theorem convertRawIndex_ok_proj (raw : List (String × BsonValue))
    (opts : GetIndexOptions) (out : Index)
    (h : convertRawIndex raw opts = .ok out) :
    out.name = opts.name ∧ out.database = opts.database ∧
    out.collection = opts.collection ∧
    out.keys = reconcileKeys raw ∧
    out.options.unique =
      (match lookup raw "unique" with
        | some (.bool b) => b
        | _ => false) ∧
    out.options.sparse =
      (match lookup raw "sparse" with
        | some (.bool b) => b
        | _ => false) ∧
    reconcileCollation raw = .ok out.options.collation ∧
    out.options.version =
      (match lookup raw "v" with
        | some (.int32 n) => n
        | _ => 0) ∧
    out.options.wildcardProjection =
      (match lookup raw "wildcardProjection" with
        | some (.doc p) =>
          p.filterMap (fun e =>
            match e.2 with
            | .int32 n => some (e.1, n)
            | _ => none)
        | _ => []) := by
  unfold convertRawIndex at h
  cases hcol : reconcileCollation raw with
  | error e =>
    rw [hcol] at h
    exact absurd h (by simp)
  | ok col =>
    rw [hcol] at h
    have h2 := Except.ok.inj h
    subst h2
    exact ⟨rfl, rfl, rfl, rfl, rfl, rfl, rfl, rfl, rfl⟩

/-- C1 amended: for plain ascending/descending and 2dsphere indexes away
from the wildcard path, for the wildcard index on its "$**" path, and for
text indexes with server-computed weights, the round trip
Reconcile(simulate-database(Normalize(declared))) reproduces the identity
triple, the declared key list, unique, sparse and collation, reads the
format version back as the stamped constant, and for wildcard indexes
reproduces the wildcard projection.  The remaining declared fields are not
reproduced even though the database echoes what it was sent: hashed and 2d
kinds normalize to ascending; a plain key on "$**" reconciles as wildcard;
hidden and expire-after-seconds are echoed but never read back; text
bookkeeping (weights, languages, text version) comes back as server values;
partial-filter values come back stringified; the sphere version is never
emitted. -/
theorem roundTrip_goodKinds (idx : Index) (h : goodKindIndex idx) :
    ∃ out, roundTrip idx = .ok out ∧
      out.name = idx.name ∧ out.database = idx.database ∧
      out.collection = idx.collection ∧
      out.keys = idx.keys ∧
      out.options.unique = idx.options.unique ∧
      out.options.sparse = idx.options.sparse ∧
      out.options.collation = idx.options.collation ∧
      out.options.version = DefaultIndexVersion ∧
      (idx.keys = [⟨"$**", "wildcard"⟩] →
        out.options.wildcardProjection = idx.options.wildcardProjection) := by
  have hex : ∃ out, roundTrip idx = .ok out := by
    rw [roundTrip_eq idx]
    unfold convertRawIndex
    rw [reconcileCollation_simDb (buildIndexModel idx)]
    exact ⟨_, rfl⟩
  obtain ⟨out, hout⟩ := hex
  have hconv : convertRawIndex (simulateDatabase (buildIndexModel idx))
      ⟨idx.name, idx.database, idx.collection⟩ = .ok out := by
    rw [← roundTrip_eq idx]
    exact hout
  obtain ⟨hn, hd, hc, hk, hu, hs, hcol, hv, hwp⟩ :=
    convertRawIndex_ok_proj _ _ _ hconv
  refine ⟨out, hout, hn, hd, hc, ?_, ?_, ?_, ?_, ?_, ?_⟩
  · rw [hk]
    rcases h with ⟨ht, hf⟩ | hkw | ⟨hne, ht, hw⟩
    · exact reconcileKeys_plain idx ht hf
    · exact reconcileKeys_wildcard idx hkw
    · exact reconcileKeys_text idx hne ht hw
  · rw [hu]
    exact reconcileUnique_simDb idx
  · rw [hs]
    exact reconcileSparse_simDb idx
  · have h2 := reconcileCollation_simDb (buildIndexModel idx)
    rw [hcol] at h2
    exact Except.ok.inj h2
  · rw [hv]
    exact reconcileVersion_simDb idx
  · intro hkw
    rw [hwp]
    have hwild : isWildcardIndex idx = true := by simp [isWildcardIndex, hkw]
    exact reconcileWildcardProjection_simDb idx hwild

/-- C1 witness: a concrete unique plain index with a collation round-trips
its identity, keys, unique, sparse and collation, with the stamped version. -/
theorem roundTrip_goodKinds_witness :
    ∃ out, roundTrip plainRoundTripWitnessIndex = .ok out ∧
      out.name = "idx_plain" ∧ out.database = "db" ∧ out.collection = "coll" ∧
      out.keys = [⟨"a", "1"⟩, ⟨"b", "-1"⟩] ∧
      out.options.unique = true ∧
      out.options.sparse = false ∧
      out.options.collation =
        some { locale := "en", caseLevel := false, caseFirst := "off",
               strength := 3, numericOrdering := false,
               alternate := "non-ignorable", maxVariable := "punct",
               backwards := false } ∧
      out.options.version = DefaultIndexVersion ∧
      (plainRoundTripWitnessIndex.keys = [⟨"$**", "wildcard"⟩] →
        out.options.wildcardProjection =
          plainRoundTripWitnessIndex.options.wildcardProjection) :=
  roundTrip_goodKinds plainRoundTripWitnessIndex (Or.inl ⟨by decide, by decide⟩)

/-- C1 counterexample: the round trip does not reproduce the declared Index
exactly on every echoed field.  Hashed and 2d keys collapse to plain
ascending; hidden and expire-after-seconds are echoed by the database yet
reconcile to their zero values; a plain key on the wildcard path comes back
as wildcard; declared text weights replace the declared key list;
server-computed weights appear where none were declared; partial-filter
values come back stringified; a declared sphere version vanishes. -/
theorem roundTrip_not_exact_cex :
    (roundTripKeys hashedRoundTripIndex = .ok [⟨"user_id", "1"⟩] ∧
      hashedRoundTripIndex.keys = [⟨"user_id", "hashed"⟩] ∧
      ([⟨"user_id", "1"⟩] : List IndexKey) ≠ [⟨"user_id", "hashed"⟩]) ∧
    (roundTripKeys twoDRoundTripIndex = .ok [⟨"loc", "1"⟩] ∧
      twoDRoundTripIndex.keys = [⟨"loc", "2d"⟩]) ∧
    (lookup (simulateDatabase (buildIndexModel ttlHiddenRoundTripIndex)) "hidden" =
        some (.bool true) ∧
      lookup (simulateDatabase (buildIndexModel ttlHiddenRoundTripIndex))
        "expireAfterSeconds" = some (.int32 3600) ∧
      (roundTrip ttlHiddenRoundTripIndex).map
        (fun i => (i.options.hidden, i.options.expireAfterSeconds)) =
        .ok (false, 0) ∧
      (ttlHiddenRoundTripIndex.options.hidden,
        ttlHiddenRoundTripIndex.options.expireAfterSeconds) = (true, 3600) ∧
      ((false, (0 : Int)) ≠ (true, (3600 : Int)))) ∧
    (roundTripKeys dollarPlainRoundTripIndex = .ok [⟨"$**", "wildcard"⟩] ∧
      dollarPlainRoundTripIndex.keys = [⟨"$**", "1"⟩]) ∧
    (roundTripKeys weightedTextRoundTripIndex = .ok [⟨"body", "text"⟩] ∧
      weightedTextRoundTripIndex.keys = [⟨"title", "text"⟩]) ∧
    ((roundTrip plainTextRoundTripIndex).map (fun i => i.options.weights) =
        .ok (some [("title", 1)]) ∧
      plainTextRoundTripIndex.options.weights = none) ∧
    ((roundTrip pfeRoundTripIndex).map
        (fun i => i.options.partialFilterExpression) =
        .ok [("rating", .str "5")] ∧
      pfeRoundTripIndex.options.partialFilterExpression = [("rating", .int32 5)] ∧
      BsonValue.str "5" ≠ BsonValue.int32 5) ∧
    ((roundTrip sphereVersionRoundTripIndex).map
        (fun i => i.options.sphereVersion) = .ok 0 ∧
      sphereVersionRoundTripIndex.options.sphereVersion = 3) :=
  ⟨⟨rfl, rfl, by decide⟩, ⟨rfl, rfl⟩, ⟨rfl, rfl, rfl, rfl, by decide⟩,
   ⟨rfl, rfl⟩, ⟨rfl, rfl⟩, ⟨rfl, rfl⟩,
   ⟨rfl, rfl, fun h => BsonValue.noConfusion h⟩, ⟨rfl, rfl⟩⟩

end Mongodb
